import Mathlib

/-!
Shallow embedding of the WAHA WhatsApp routing service
(`main.py`, `models.py`, `node_allocator.py`, `schemas.py`, `database.py`).

SQLAlchemy tables become Lean lists held in a `DB` record; `query(...).first()`
becomes `List.find?`, `.all()` becomes `List.filter`, `.count()` becomes
`List.length`, `order_by(k).first()` becomes `orderFirst k` (first element with
minimal key, earliest in table order on ties).  The session factory is built
with `autoflush=False`, so rows added during one resolution pass are invisible
to queries issued later in the same pass; the embedding therefore runs all
queries against the original `DB` value and appends the pending rows at the
final `commit`.  Remote HTTP calls against WAHA nodes are modelled by oracles
passed as function arguments, and the number of remote linked-id resolution
calls performed is returned explicitly, so that statements about repeated
remote lookups are expressible.
-/

namespace Waha

/-- Does the second character list start with the first one? -/
def charsStart : List Char → List Char → Bool
  | [], _ => true
  | _ :: _, [] => false
  | p :: ps, c :: cs => p == c && charsStart ps cs

/-- Does the second character list contain the first one as a contiguous run?
Embeds the Python `pat in s` test on strings and SQL `LIKE '%pat%'`. -/
def charsContain (p : List Char) : List Char → Bool
  | [] => charsStart p []
  | c :: cs => charsStart p (c :: cs) || charsContain p cs

/-- Python `pat in s` on strings. -/
def strContains (s pat : String) : Bool := charsContain pat.toList s.toList

/-- Python `s.split("@")[0]`: everything before the first `'@'` (the whole
string when no `'@'` occurs, matching `split`). -/
def beforeAt (s : String) : String := String.mk (s.toList.takeWhile (fun c => c != '@'))

/-- `models.WahaNode` (table `waha_nodes`). -/
structure WahaNode where
  id : Nat
  url : String
  api_key : String
  max_sessions : Nat
  active_sessions : Nat
deriving Repr, DecidableEq

/-- `models.WaSession` (table `wa_sessions`). -/
structure WaSession where
  id : Nat
  phone : String
  session_name : String
  node_id : Nat
deriving Repr, DecidableEq

/-- `models.ContactContainer` (table `contact_containers`); `container_number`
is a nullable integer column, hence `Option Nat`; a `NULL`/empty
`phone_number` is modelled as `""` (Python truthiness treats both alike). -/
structure ContactContainer where
  id : Nat
  contact_id : String
  phone_number : String
  container_number : Option Nat
  node_id : Nat
deriving Repr, DecidableEq

/-- The three relational tables. -/
structure DB where
  nodes : List WahaNode
  sessions : List WaSession
  contacts : List ContactContainer
deriving Repr, DecidableEq

/-- `schemas.CreateSessionRequest`: `phone` defaults to `"default"`,
`container_number` is an optional hint. -/
structure CreateSessionRequest where
  phone : String
  container_number : Option Nat
deriving Repr, DecidableEq

/-- The JSON dict returned by the `/session/create` route: either
`{"status": "error", "message": ...}` or
`{"status": "success", "assigned_to": ..., "container": ..., "phone": ...}`. -/
inductive SessionResp where
  | err (message : String)
  | ok (assigned_to : String) (container : Nat) (phone : String)
deriving Repr, DecidableEq

/-- `node_allocator.pick_node`'s `order_by(key).first()`: the element with the
smallest key, the earliest such element in table order on ties. -/
def orderFirst (key : WahaNode → Nat) : List WahaNode → Option WahaNode
  | [] => none
  | n :: ns =>
    match orderFirst key ns with
    | none => some n
    | some m => if key n ≤ key m then some n else some m

/-- `node_allocator.pick_node`: filter nodes with spare capacity, order by
`active_sessions`, take the first. -/
def pick_node (db : DB) : Option WahaNode :=
  orderFirst (fun n => n.active_sessions)
    (db.nodes.filter (fun n => n.active_sessions < n.max_sessions))

/-- `main.create_session` (POST `/session/create`).  `remote` models the
`POST {node.url}/api/sessions` call: `.ok ()` for a 2xx response, `.error msg`
for `raise_for_status` / network errors.  Returns the JSON response and the
database state after the handler. -/
def create_session (request : CreateSessionRequest) (db : DB)
    (remote : Nat → String → Except String Unit) : SessionResp × DB :=
  let phone := request.phone
  match db.sessions.find? (fun s => s.phone == phone) with
  | some _ => (.err ("Session for " ++ phone ++ " already exists"), db)
  | none =>
    let total_sessions := db.sessions.length
    let container_number := total_sessions % 2 + 1
    match db.nodes.find? (fun n => strContains n.url ("waha_core_" ++ toString container_number)) with
    | none => (.err ("WAHA container " ++ toString container_number ++ " not found"), db)
    | some node =>
      match remote node.id phone with
      | .error e => (.err e, db)
      | .ok _ =>
        let row : WaSession :=
          { id := db.sessions.length, phone := phone, session_name := phone, node_id := node.id }
        (.ok node.url container_number phone, { db with sessions := db.sessions ++ [row] })

/-- Result of the `GET {node.url}/api/{session}/lids/{lid}` oracle:
`some pn` is an HTTP 200 response whose JSON body has `"pn"` equal to `pn`
(a missing `pn` field is `some ""`, matching `data.get("pn", "")`); `none` is
a non-200 status or a raised exception. -/
def LidOracle := String → String → Nat → Option String

/-- `main.resolve_lid_to_phone_via_waha`: resolve an `@lid` contact id to a
phone number through the WAHA API, falling back to the bare lid on failure. -/
def resolve_lid_to_phone_via_waha (contact_id session : String) (node : WahaNode)
    (oracle : LidOracle) : String :=
  if !strContains contact_id "@lid" then
    (if strContains contact_id "@" then beforeAt contact_id else contact_id)
  else
    let lid := beforeAt contact_id
    match oracle lid session node.id with
    | some pn =>
      let phone : Option String := if strContains pn "@" then some (beforeAt pn) else none
      match phone with
      | some p => if p != "" then p else lid
      | none => lid
    | none => lid

/-- `main.get_phone_from_contact`: take the part before `'@'`, but prefer a
phone number already stored on a `ContactContainer` row for this exact
contact id (Python truthiness: a stored `""`/NULL phone is ignored). -/
def get_phone_from_contact (contact_id : String) (db : DB) : String :=
  let phone_or_lid := if strContains contact_id "@" then beforeAt contact_id else contact_id
  match db.contacts.find? (fun r => r.contact_id == contact_id) with
  | some existing => if existing.phone_number != "" then existing.phone_number else phone_or_lid
  | none => phone_or_lid

/-- Lines 142-151 of `main.py`: the persisted `(container_number, node)` pairs
for a contact, skipping rows whose node id is absent from the registry. -/
def existingContainers (contact_id : String) (db : DB) : List (Option Nat × WahaNode) :=
  (db.contacts.filter (fun r => r.contact_id == contact_id)).filterMap
    (fun m => (db.nodes.find? (fun n => n.id == m.node_id)).map
      (fun n => (m.container_number, n)))

/-- Lines 162-184 of `main.py`: the phone number used to match the static
routing table, together with the number of remote lid-resolution calls made
(1 when the WAHA lookup was issued, else 0). -/
def resolvedPhoneForMatching (contact_id : String) (db : DB) (oracle : LidOracle) :
    String × Nat :=
  let phone_number := get_phone_from_contact contact_id db
  if strContains contact_id "@lid" then
    let stored := db.contacts.find? (fun r => r.contact_id == contact_id)
    let storedPhone : Option String :=
      match stored with
      | some r => if r.phone_number != "" then some r.phone_number else none
      | none => none
    match storedPhone with
    | some p => (p, 0)
    | none =>
      let session_name := match db.sessions.head? with
        | some s => s.phone
        | none => "default"
      match db.nodes.head? with
      | some node =>
        let resolved := resolve_lid_to_phone_via_waha contact_id session_name node oracle
        if resolved != "" && resolved != phone_number then (resolved, 1) else (phone_number, 1)
      | none => (phone_number, 0)
  else (phone_number, 0)

/-- One step of the scan over the static routing table (lines 187-194):
append the entry's container number when its phone list contains the resolved
phone and the number was not collected yet. -/
def addMatch (phone : String) (acc : List Nat) (entry : Nat × List String) : List Nat :=
  if entry.2.contains phone && !acc.contains entry.1 then acc ++ [entry.1] else acc

/-- All container numbers of static-table entries whose phone list contains
the resolved phone, in table order, deduplicated. -/
def matchedContainers (phone : String) (table : List (Nat × List String)) : List Nat :=
  table.foldl (addMatch phone) []

/-- Lines 197-203 of `main.py`: the default container derived from the last
character of the part of the contact id before `'@'`; non-digit or absent
counts as 0; digits below 5 give container 1, the rest container 2. -/
def fallbackContainer (contact_id : String) : Nat :=
  let phone := if strContains contact_id "@" then beforeAt contact_id else contact_id
  let last_digit : Nat :=
    match phone.toList.getLast? with
    | some ch => if ch.isDigit then ch.toNat - 48 else 0
    | none => 0
  if last_digit < 5 then 1 else 2

/-- `db.query(WahaNode).filter(WahaNode.url.like(f"%waha_core_{c}%")).first()`. -/
def nodeByContainer (db : DB) (c : Nat) : Option WahaNode :=
  db.nodes.find? (fun n => strContains n.url ("waha_core_" ++ toString c))

/-- Lines 205-258 of `main.py`: iterate over the collected container numbers;
skip numbers other than 1 and 2 and numbers whose node is missing; for each
remaining number build the `(container, node)` routing pair and, when no row
for `(contact_id, container)` exists yet, a pending `ContactContainer` row
(resolving `@lid` ids through the WAHA API first).  All queries read the
original `db` (`autoflush=False`); `k` supplies fresh row ids.  Returns
`(pending rows, routing pairs, remote lid calls)`. -/
def persistLoop (contact_id : String) (db : DB) (oracle : LidOracle) :
    List Nat → Nat → List ContactContainer × List (Option Nat × WahaNode) × Nat
  | [], _ => ([], [], 0)
  | c :: cs, k =>
    if !(c == 1 || c == 2) then persistLoop contact_id db oracle cs k
    else
      match nodeByContainer db c with
      | none => persistLoop contact_id db oracle cs k
      | some node =>
        match db.contacts.find?
            (fun r => r.contact_id == contact_id && r.container_number == some c) with
        | some _ =>
          let rest := persistLoop contact_id db oracle cs k
          (rest.1, (some c, node) :: rest.2.1, rest.2.2)
        | none =>
          let pn0 := get_phone_from_contact contact_id db
          let pnCalls : String × Nat :=
            if strContains contact_id "@lid" then
              let session_name := match db.sessions.head? with
                | some s => s.phone
                | none => "default"
              let resolved := resolve_lid_to_phone_via_waha contact_id session_name node oracle
              if resolved != "" && resolved != pn0 then (resolved, 1) else (pn0, 1)
            else (pn0, 0)
          let row : ContactContainer :=
            { id := k, contact_id := contact_id, phone_number := pnCalls.1,
              container_number := some c, node_id := node.id }
          let rest := persistLoop contact_id db oracle cs (k + 1)
          (row :: rest.1, (some c, node) :: rest.2.1, pnCalls.2 + rest.2.2)

/-- `main.get_container_for_contact`: resolve a contact id to a
`(container_number, node)` pair, persisting newly computed assignments.
Returns the result (the Python function returns `containers[0]` and raises
when no container could be resolved), the database after the handler's
`commit`, and the number of remote lid-resolution calls made. -/
def get_container_for_contact (contact_id : String) (db : DB)
    (table : List (Nat × List String)) (oracle : LidOracle) :
    Except String (Option Nat × WahaNode) × DB × Nat :=
  match existingContainers contact_id db with
  | c :: _ => (.ok c, db, 0)
  | [] =>
    let pm := resolvedPhoneForMatching contact_id db oracle
    let matched := matchedContainers pm.1 table
    let container_numbers := if matched.isEmpty then [fallbackContainer contact_id] else matched
    let res := persistLoop contact_id db oracle container_numbers db.contacts.length
    let db' : DB := { db with contacts := db.contacts ++ res.1 }
    match res.2.1 with
    | [] => (.error ("No valid containers found for contact " ++ contact_id), db', pm.2 + res.2.2)
    | c :: _ => (.ok c, db', pm.2 + res.2.2)

/-- Outcome of the single `POST /api/sendText` issued by `send_msg`. -/
structure SendResult where
  container : Option Nat
  node_id : Nat
deriving Repr, DecidableEq

/-- `main.send_msg`: resolve the recipient's container and send the text to
the resolved node.  `sendOk` models the HTTP POST per node id (`false` means
`raise_for_status` raised).  Returns the outcome, the database after
resolution, and the remote lid-resolution call count. -/
def send_msg (session_phone recipient_chat_id text : String) (db : DB)
    (table : List (Nat × List String)) (oracle : LidOracle) (sendOk : Nat → Bool) :
    Except String SendResult × DB × Nat :=
  let _ := session_phone
  let _ := text
  match get_container_for_contact recipient_chat_id db table oracle with
  | (.error e, db', k) => (.error e, db', k)
  | (.ok cn, db', k) =>
    if sendOk cn.2.id then (.ok { container := cn.1, node_id := cn.2.id }, db', k)
    else (.error "send failed", db', k)

/-- The *well-typed* extraction of a webhook body: the string values of
`payload.get("event")`, `payload.get("session", ...)`, and of the `"from"`,
`"body"`, `"id"` fields of the nested `"payload"` object; a missing field is
`none`.  This covers the bodies on which the handler's unprotected field
extraction succeeds with string-typed fields; the raw body, including
non-object and ill-typed-field payloads that crash the extraction, is
modelled separately by `JsonVal` and `webhook_json` below. -/
structure WebhookPayload where
  event : Option String
  session : Option String
  pFrom : Option String
  pBody : Option String
  pId : Option String
deriving Repr, DecidableEq

/-- Observable outcome of one webhook invocation: the database afterwards,
the read-receipt attempt (node contacted and whether the POST succeeded —
its outcome is swallowed by the handler), the echo sends actually performed
as `(container, node id, success)` triples, and the acknowledgment flag of
the JSON response. -/
structure WebhookOut where
  db : DB
  seen : Option (Nat × Bool)
  echoes : List (Nat × Nat × Bool)
  ok : Bool
deriving Repr, DecidableEq

/-- Lines 372-392 of `main.py`: echo the message once per persisted mapping.
A mapping whose node is missing, or whose container number is NULL, is
skipped (`continue`); a failed send (`raise_for_status`) raises out of the
`for` loop, so the remaining mappings are never attempted — the exception is
caught by the surrounding `except`, hence the truncated list is the final
outcome. -/
def echo_loop (db : DB) (sendOk : Nat → Bool) :
    List ContactContainer → List (Nat × Nat × Bool)
  | [] => []
  | m :: ms =>
    match db.nodes.find? (fun n => n.id == m.node_id) with
    | none => echo_loop db sendOk ms
    | some node =>
      match m.container_number with
      | none => echo_loop db sendOk ms
      | some c =>
        if sendOk node.id then (c, node.id, true) :: echo_loop db sendOk ms
        else [(c, node.id, false)]

/-- Lines 332-337 of `main.py`: the node targeted by the read receipt — the
session's node when the session is stored, otherwise the registry node with
the fewest active sessions. -/
def seenTargetNode (session : String) (db : DB) : Option WahaNode :=
  match db.sessions.find? (fun s => s.phone == session) with
  | some sess => db.nodes.find? (fun n => n.id == sess.node_id)
  | none => orderFirst (fun n => n.active_sessions) db.nodes

/-- `main.webhook` (POST `/webhook/waha`) on a well-typed extraction.
`parsed = none` models a body on which `json.loads` raises (it is called
outside every `try`, so the error propagates and no acknowledgment is
produced); `some payload` models a successfully parsed JSON object with
string-typed fields.  `seenOk`/`sendOk` model the per-node outcomes of the
read-receipt and echo POSTs.  `webhook_json` below extends this to raw JSON
bodies whose ill-typed fields crash the extraction itself. -/
def webhook (parsed : Option WebhookPayload) (db : DB)
    (table : List (Nat × List String)) (oracle : LidOracle)
    (seenOk : Nat → Bool) (sendOk : Nat → Bool) : Except String WebhookOut :=
  match parsed with
  | none => .error "json.JSONDecodeError"
  | some payload =>
    let event := payload.event
    let session := payload.session.getD "default"
    if event == some "message" then
      let chat_id := payload.pFrom
      let text := payload.pBody.getD ""
      let seen := (seenTargetNode session db).map (fun n => (n.id, seenOk n.id))
      if text != "" then
        match chat_id with
        | none =>
          -- `get_container_for_contact(None, db)` raises a `TypeError` on
          -- `"@" in None` before writing anything; the `except` swallows it.
          .ok { db := db, seen := seen, echoes := [], ok := true }
        | some cid =>
          let contact_mappings := db.contacts.filter (fun r => r.contact_id == cid)
          if contact_mappings.isEmpty then
            match get_container_for_contact cid db table oracle with
            | (.ok _, db', _) =>
              let mappings' := db'.contacts.filter (fun r => r.contact_id == cid)
              .ok { db := db', seen := seen, echoes := echo_loop db' sendOk mappings', ok := true }
            | (.error _, db', _) =>
              .ok { db := db', seen := seen, echoes := [], ok := true }
          else
            .ok { db := db, seen := seen, echoes := echo_loop db sendOk contact_mappings, ok := true }
      else .ok { db := db, seen := seen, echoes := [], ok := true }
    else if event == some "session.status" then
      .ok { db := db, seen := none, echoes := [], ok := true }
    else if event == some "message.ack" then
      .ok { db := db, seen := none, echoes := [], ok := true }
    else
      .ok { db := db, seen := none, echoes := [], ok := true }

/-- An insert of a `ContactContainer` row as the database engine performs it
under `uq_contact_container = UniqueConstraint('contact_id',
'container_number')` (`models.py` line 28): a row whose key pair already
exists is rejected and the table is left unchanged.  This models the commit
of a concurrent duplicate-insert attempt racing with a resolution pass. -/
def insertUnique (db : DB) (row : ContactContainer) : DB :=
  if db.contacts.any
      (fun r => r.contact_id == row.contact_id && r.container_number == row.container_number)
  then db
  else { db with contacts := db.contacts ++ [row] }

/-- A JSON value, as produced by a successful `json.loads`.  Used to model
the raw webhook body faithfully: the handler reads fields of the parsed
value with no validation, so ill-typed values (a `null` `"payload"`, a
numeric `"body"`, a non-object top level) reach the extraction code at
`main.py` lines 312-324 and crash it outside every `try`. -/
inductive JsonVal where
  | null
  | bool (b : Bool)
  | num (n : Int)
  | str (s : String)
  | arr (elems : List JsonVal)
  | obj (fields : List (String × JsonVal))

/-- Python `dict.get(k)` on a JSON object: the stored value when the key is
present (even when that value is `null`), otherwise `None`. -/
def jsonGet (fields : List (String × JsonVal)) (k : String) : Option JsonVal :=
  (fields.find? (fun f => f.1 == k)).map (fun f => f.2)

/-- Python `v == s` for a string literal `s`: true exactly when the value is
that string (comparison with `None` or any non-string value is `False`). -/
def jsonIsStr (v : Option JsonVal) (s : String) : Bool :=
  match v with
  | some (.str t) => t == s
  | _ => false

/-- Does `v[:30]` succeed in Python?  Among JSON-decoded values only strings
and lists support slicing; `None`, booleans, numbers and dicts raise
`TypeError`. -/
def sliceable : JsonVal → Bool
  | .str _ => true
  | .arr _ => true
  | _ => false

/-- Python truthiness of a JSON-decoded value (`if text:`). -/
def jsonTruthy : JsonVal → Bool
  | .null => false
  | .bool b => b
  | .num n => n != 0
  | .str s => s != ""
  | .arr l => !l.isEmpty
  | .obj fs => !fs.isEmpty

/-- `main.webhook` on the raw request body.  `body = none` models a body on
which `json.loads` (`main.py:311`, outside every `try`) raises; `some v`
models a body parsing to the JSON value `v`.  Field extraction
(`main.py:312-324`) is also outside every `try`: `payload.get` on a
non-object top level, `message_payload.get` on a non-object `"payload"`
value (`main.py:320`, also `:397` and `:402` for the status/ack events), and
`text[:30]` on a non-sliceable `"body"` value (`main.py:324`) raise out of
the handler.  Once extraction succeeds the behaviour matches `webhook`:
failures of the read-receipt, the resolution and the echo sends are
swallowed.  A stored `null` for `"from"` or `"session"`, or an ill-typed
value there, only makes the corresponding query or `get_container_for_contact`
call fail inside its `try`. -/
def webhook_json (body : Option JsonVal) (db : DB)
    (table : List (Nat × List String)) (oracle : LidOracle)
    (seenOk : Nat → Bool) (sendOk : Nat → Bool) : Except String WebhookOut :=
  match body with
  | none => .error "json.JSONDecodeError"
  | some parsed =>
    match parsed with
    | .obj fields =>
      let event := jsonGet fields "event"
      let sessionVal := (jsonGet fields "session").getD (.str "default")
      if jsonIsStr event "message" then
        match (jsonGet fields "payload").getD (.obj []) with
        | .obj pf =>
          let chat_id := jsonGet pf "from"
          let textVal := (jsonGet pf "body").getD (.str "")
          if sliceable textVal then
            let seen : Option (Nat × Bool) :=
              match sessionVal with
              | .str session => (seenTargetNode session db).map (fun n => (n.id, seenOk n.id))
              | .null =>
                -- `filter_by(phone=None)` matches nothing; the fallback
                -- least-loaded node is used (main.py:337).
                (orderFirst (fun n => n.active_sessions) db.nodes).map
                  (fun n => (n.id, seenOk n.id))
              | _ =>
                -- `filter_by(phone=<ill-typed>)` raises inside the `try`
                -- (main.py:332); the read receipt is skipped.
                none
            if jsonTruthy textVal then
              match chat_id with
              | some (.str cid) =>
                let contact_mappings := db.contacts.filter (fun r => r.contact_id == cid)
                if contact_mappings.isEmpty then
                  match get_container_for_contact cid db table oracle with
                  | (.ok _, db', _) =>
                    let mappings' := db'.contacts.filter (fun r => r.contact_id == cid)
                    .ok { db := db', seen := seen, echoes := echo_loop db' sendOk mappings',
                          ok := true }
                  | (.error _, db', _) =>
                    .ok { db := db', seen := seen, echoes := [], ok := true }
                else
                  .ok { db := db, seen := seen, echoes := echo_loop db sendOk contact_mappings,
                        ok := true }
              | _ =>
                -- A missing `"from"`, a stored `null`, or an ill-typed value:
                -- the query or the `get_container_for_contact(...)` call in
                -- the echo block raises inside its `try` and is swallowed.
                .ok { db := db, seen := seen, echoes := [], ok := true }
            else .ok { db := db, seen := seen, echoes := [], ok := true }
          else .error "TypeError"
        | _ => .error "AttributeError"
      else if jsonIsStr event "session.status" then
        match (jsonGet fields "payload").getD (.obj []) with
        | .obj _ => .ok { db := db, seen := none, echoes := [], ok := true }
        | _ => .error "AttributeError"
      else if jsonIsStr event "message.ack" then
        match (jsonGet fields "payload").getD (.obj []) with
        | .obj _ => .ok { db := db, seen := none, echoes := [], ok := true }
        | _ => .error "AttributeError"
      else .ok { db := db, seen := none, echoes := [], ok := true }
    | _ => .error "AttributeError"

/-- The typing discipline the handler's unprotected extraction code imposes
on a parsed body: the top level is a JSON object; for a `"message"` event
the `"payload"` value (an absent key defaults to `{}`) is an object and its
`"body"` value (absent defaults to `""`) is sliceable (a string or a list);
for a `"session.status"` or `"message.ack"` event the `"payload"` value is
an object; any other event value needs nothing further. -/
def wellTypedBody : JsonVal → Bool
  | .obj fields =>
    let event := jsonGet fields "event"
    if jsonIsStr event "message" then
      match (jsonGet fields "payload").getD (.obj []) with
      | .obj pf => sliceable ((jsonGet pf "body").getD (.str ""))
      | _ => false
    else if jsonIsStr event "session.status" then
      match (jsonGet fields "payload").getD (.obj []) with
      | .obj _ => true
      | _ => false
    else if jsonIsStr event "message.ack" then
      match (jsonGet fields "payload").getD (.obj []) with
      | .obj _ => true
      | _ => false
    else true
  | _ => false

/-- The uniqueness invariant declared by `uq_contact_container`
(`models.py` line 28): no two rows share both the contact identifier and the
container number. -/
def ContactsUnique (l : List ContactContainer) : Prop :=
  l.Pairwise (fun a b => ¬(a.contact_id = b.contact_id ∧ a.container_number = b.container_number))

/-- At most one `WaSession` row per session name (rows are created with
`session_name = phone`, and `create_session` keys its existence check on
`phone`). -/
def SessionsUnique (l : List WaSession) : Prop :=
  l.Pairwise (fun a b => a.phone ≠ b.phone)

/-- Database states reachable from startup (`init_nodes` populates only the
node table) through the operations of the service, plus raw
constraint-checked inserts standing for concurrent writers racing a
resolution pass. -/
inductive Reachable : DB → Prop where
  | boot (nodes : List WahaNode) :
      Reachable { nodes := nodes, sessions := [], contacts := [] }
  | createStep (request : CreateSessionRequest) (remote : Nat → String → Except String Unit)
      (db : DB) : Reachable db → Reachable (create_session request db remote).2
  | resolveStep (cid : String) (table : List (Nat × List String)) (oracle : LidOracle)
      (db : DB) : Reachable db → Reachable (get_container_for_contact cid db table oracle).2.1
  | sendStep (sp rc txt : String) (table : List (Nat × List String)) (oracle : LidOracle)
      (sendOk : Nat → Bool) (db : DB) :
      Reachable db → Reachable (send_msg sp rc txt db table oracle sendOk).2.1
  | webhookStep (p : Option WebhookPayload) (table : List (Nat × List String))
      (oracle : LidOracle) (seenOk sendOk : Nat → Bool) (db : DB) (out : WebhookOut) :
      Reachable db → webhook p db table oracle seenOk sendOk = .ok out → Reachable out.db
  | webhookJsonStep (body : Option JsonVal) (table : List (Nat × List String))
      (oracle : LidOracle) (seenOk sendOk : Nat → Bool) (db : DB) (out : WebhookOut) :
      Reachable db → webhook_json body db table oracle seenOk sendOk = .ok out →
      Reachable out.db
  | rawInsertStep (row : ContactContainer) (db : DB) :
      Reachable db → Reachable (insertUnique db row)

/-- The `(container, node id)` pairs the echo loop is supposed to serve: one
per persisted mapping whose node exists and whose container number is set. -/
def validEchoTargets (db : DB) (ms : List ContactContainer) : List (Nat × Nat) :=
  ms.filterMap (fun m =>
    match db.nodes.find? (fun n => n.id == m.node_id) with
    | none => none
    | some n =>
      match m.container_number with
      | none => none
      | some c => some (c, n.id))

/-- Attempt each target in order and stop right after the first failed send:
the observable behaviour of a fan-out whose loop body can raise out of the
loop. -/
def echoUpToFirstFailure (sendOk : Nat → Bool) : List (Nat × Nat) → List (Nat × Nat × Bool)
  | [] => []
  | t :: rest =>
    if sendOk t.2 then (t.1, t.2, true) :: echoUpToFirstFailure sendOk rest
    else [(t.1, t.2, false)]

/-- First node of `database.init_nodes`. -/
def exNode1 : WahaNode :=
  { id := 1, url := "http://waha_core_1:3000", api_key := "secret1",
    max_sessions := 200, active_sessions := 0 }

/-- Second node of `database.init_nodes`. -/
def exNode2 : WahaNode :=
  { id := 2, url := "http://waha_core_2:3000", api_key := "secret2",
    max_sessions := 200, active_sessions := 0 }

/-- The database right after startup. -/
def exDB : DB := { nodes := [exNode1, exNode2], sessions := [], contacts := [] }

/-- A lid-resolution oracle on which every remote lookup fails. -/
def exNoLid : LidOracle := fun _ _ _ => none

/-- A persisted assignment of contact `77000@c.us` to container 1 / node 1. -/
def exRow1 : ContactContainer :=
  { id := 10, contact_id := "77000@c.us", phone_number := "77000",
    container_number := some 1, node_id := 1 }

/-- A persisted assignment of the same contact to container 2 / node 2. -/
def exRow2 : ContactContainer :=
  { id := 11, contact_id := "77000@c.us", phone_number := "77000",
    container_number := some 2, node_id := 2 }

/-- A state in which contact `77000@c.us` is mapped to both containers. -/
def exDBTwo : DB := { nodes := [exNode1, exNode2], sessions := [], contacts := [exRow1, exRow2] }

/-- A send oracle on which node 1 fails and every other node succeeds. -/
def exSendFail1 : Nat → Bool := fun nid => nid != 1

/-- An inbound message webhook payload from contact `77000@c.us`. -/
def exPayload : WebhookPayload :=
  { event := some "message", session := none, pFrom := some "77000@c.us",
    pBody := some "hi", pId := some "m1" }

theorem orderFirst_eq_none {key : WahaNode → Nat} :
    ∀ {l : List WahaNode}, orderFirst key l = none ↔ l = []
  | [] => by simp [orderFirst]
  | n :: ns => by
    simp only [orderFirst]
    constructor
    · intro h
      cases hh : orderFirst key ns with
      | none => rw [hh] at h; exact absurd h (by simp)
      | some m => rw [hh] at h; dsimp at h; split at h <;> exact absurd h (by simp)
    · intro h; exact absurd h (by simp)

theorem orderFirst_spec {key : WahaNode → Nat} :
    ∀ {l : List WahaNode} {n : WahaNode}, orderFirst key l = some n →
      ∃ l1 l2, l = l1 ++ n :: l2 ∧ (∀ m ∈ l1, key n < key m) ∧ (∀ m ∈ l2, key n ≤ key m)
  | [], n => by simp [orderFirst]
  | a :: as, n => by
    intro h
    simp only [orderFirst] at h
    cases hh : orderFirst key as with
    | none =>
      rw [hh] at h
      injection h with h
      subst h
      have hnil : as = [] := orderFirst_eq_none.mp hh
      subst hnil
      exact ⟨[], [], rfl, by simp, by simp⟩
    | some m =>
      rw [hh] at h
      dsimp only at h
      obtain ⟨l1, l2, heq, h1, h2⟩ := orderFirst_spec hh
      split at h
      case isTrue hle =>
        injection h with h
        subst h
        refine ⟨[], as, rfl, by simp, ?_⟩
        intro x hx
        rw [heq] at hx
        rcases List.mem_append.mp hx with hx | hx
        · exact Nat.le_trans hle (Nat.le_of_lt (h1 x hx))
        · rcases List.mem_cons.mp hx with rfl | hx
          · exact hle
          · exact Nat.le_trans hle (h2 x hx)
      case isFalse hlt =>
        injection h with h
        subst h
        refine ⟨a :: l1, l2, by rw [heq, List.cons_append], ?_, h2⟩
        intro x hx
        rcases List.mem_cons.mp hx with rfl | hx
        · exact Nat.lt_of_not_le hlt
        · exact h1 x hx

/-- C8: `pick_node`, for every node catalog, returns a node with
`active_sessions < max_sessions` having the minimum `active_sessions` among
such nodes, ties broken by registry order (every qualifying node listed
earlier is strictly more loaded), and returns `none` exactly when no node has
spare capacity. -/
theorem pick_node_least_loaded (db : DB) :
    match pick_node db with
    | none => ∀ n ∈ db.nodes, ¬n.active_sessions < n.max_sessions
    | some n =>
      n ∈ db.nodes ∧ n.active_sessions < n.max_sessions ∧
        (∀ m ∈ db.nodes, m.active_sessions < m.max_sessions →
          n.active_sessions ≤ m.active_sessions) ∧
        ∃ l1 l2,
          db.nodes.filter (fun m => m.active_sessions < m.max_sessions) = l1 ++ n :: l2 ∧
            ∀ m ∈ l1, n.active_sessions < m.active_sessions := by
  cases h : pick_node db with
  | none =>
    intro n hn hlt
    have hnil := orderFirst_eq_none.mp h
    have hmem : n ∈ db.nodes.filter (fun m => m.active_sessions < m.max_sessions) :=
      List.mem_filter.mpr ⟨hn, by simpa using hlt⟩
    rw [hnil] at hmem
    exact absurd hmem (List.not_mem_nil n)
  | some n =>
    obtain ⟨l1, l2, heq, h1, h2⟩ := orderFirst_spec h
    have hmemf : n ∈ db.nodes.filter (fun m => m.active_sessions < m.max_sessions) := by
      rw [heq]; exact List.mem_append.mpr (Or.inr (List.mem_cons_self n l2))
    have hmem := List.mem_filter.mp hmemf
    refine ⟨hmem.1, by simpa using hmem.2, ?_, l1, l2, heq, h1⟩
    intro m hm hcap
    have hmf : m ∈ db.nodes.filter (fun x => x.active_sessions < x.max_sessions) :=
      List.mem_filter.mpr ⟨hm, by simpa using hcap⟩
    rw [heq] at hmf
    rcases List.mem_append.mp hmf with hmf | hmf
    · exact Nat.le_of_lt (h1 m hmf)
    · rcases List.mem_cons.mp hmf with rfl | hmf
      · exact Nat.le_refl _
      · exact h2 m hmf

/-- C9: the `container_number` hint of a `CreateSessionRequest` is never read
by `create_session`: two requests differing only in the hint produce the same
response and the same state. -/
theorem create_session_hint_independent (phone : String) (hint1 hint2 : Option Nat)
    (db : DB) (remote : Nat → String → Except String Unit) :
    create_session { phone := phone, container_number := hint1 } db remote =
      create_session { phone := phone, container_number := hint2 } db remote := rfl

/-- C2 (amended): the acknowledgment depends only on the typing of the raw
body, never on the database, the static table, the lid oracle or the
per-node outcomes of the read-receipt and echo sends: a body whose parsed
value satisfies `wellTypedBody` — a JSON object whose `"payload"` value is
an object and, for message events, whose `"body"` value is a string or list
— always gets `{"ok": True}`, while a body that fails JSON parsing or
violates that typing raises out of the handler (the parse at `main.py:311`
and the field extraction at `main.py:312-324`, `:397`, `:402` sit outside
every `try`), producing no acknowledgment. -/
theorem webhook_ack_characterization :
    (∀ (j : JsonVal) (db : DB) (table : List (Nat × List String)) (oracle : LidOracle)
        (seenOk sendOk : Nat → Bool),
        if wellTypedBody j then
          ∃ out, webhook_json (some j) db table oracle seenOk sendOk = .ok out ∧ out.ok = true
        else ∃ e, webhook_json (some j) db table oracle seenOk sendOk = .error e) ∧
    (∀ (db : DB) (table : List (Nat × List String)) (oracle : LidOracle)
        (seenOk sendOk : Nat → Bool),
        webhook_json none db table oracle seenOk sendOk = .error "json.JSONDecodeError") := by
  constructor
  · intro j db table oracle seenOk sendOk
    cases j with
    | null => exact ⟨_, rfl⟩
    | bool b => exact ⟨_, rfl⟩
    | num n => exact ⟨_, rfl⟩
    | str s => exact ⟨_, rfl⟩
    | arr l => exact ⟨_, rfl⟩
    | obj fields =>
      simp only [wellTypedBody, webhook_json]
      cases hev : jsonIsStr (jsonGet fields "event") "message" with
      | true =>
        simp only [hev, if_true]
        cases hmp : (jsonGet fields "payload").getD (.obj []) with
        | obj pf =>
          cases hsl : sliceable ((jsonGet pf "body").getD (.str "")) with
          | true =>
            simp only [hsl, if_true]
            repeat' split
            all_goals exact ⟨_, rfl, rfl⟩
          | false => simp only [hsl, Bool.false_eq_true, if_false]; exact ⟨_, rfl⟩
        | null => exact ⟨_, rfl⟩
        | bool b => exact ⟨_, rfl⟩
        | num n => exact ⟨_, rfl⟩
        | str s => exact ⟨_, rfl⟩
        | arr l => exact ⟨_, rfl⟩
      | false =>
        simp only [hev, Bool.false_eq_true, if_false]
        cases hss : jsonIsStr (jsonGet fields "event") "session.status" with
        | true =>
          simp only [hss, if_true]
          cases hmp : (jsonGet fields "payload").getD (.obj []) with
          | obj pf => exact ⟨_, rfl, rfl⟩
          | null => exact ⟨_, rfl⟩
          | bool b => exact ⟨_, rfl⟩
          | num n => exact ⟨_, rfl⟩
          | str s => exact ⟨_, rfl⟩
          | arr l => exact ⟨_, rfl⟩
        | false =>
          simp only [hss, Bool.false_eq_true, if_false]
          cases hma : jsonIsStr (jsonGet fields "event") "message.ack" with
          | true =>
            simp only [hma, if_true]
            cases hmp : (jsonGet fields "payload").getD (.obj []) with
            | obj pf => exact ⟨_, rfl, rfl⟩
            | null => exact ⟨_, rfl⟩
            | bool b => exact ⟨_, rfl⟩
            | num n => exact ⟨_, rfl⟩
            | str s => exact ⟨_, rfl⟩
            | arr l => exact ⟨_, rfl⟩
          | false =>
            simp only [hma, Bool.false_eq_true, if_false]
            exact ⟨_, rfl, rfl⟩
  · intro db table oracle seenOk sendOk
    rfl

/-- C2 counterexample: three bodies on which the handler raises instead of
acknowledging, because `json.loads` and the field extraction run outside
every `try`: `{"event": "message", "payload": null}` (AttributeError at
`main.py:320` — `.get` on `None`), `{"event": "message", "payload":
{"from": ..., "body": 5}}` (TypeError at `main.py:324` — `text[:30]` on an
int), and a body that is not valid JSON (the parse at `main.py:311`
raises). -/
theorem webhook_illtyped_payload_cex :
    webhook_json (some (.obj [("event", .str "message"), ("payload", .null)]))
        exDB [] exNoLid (fun _ => true) (fun _ => true) = .error "AttributeError" ∧
    webhook_json (some (.obj [("event", .str "message"),
        ("payload", .obj [("from", .str "77000@c.us"), ("body", .num 5)])]))
        exDB [] exNoLid (fun _ => true) (fun _ => true) = .error "TypeError" ∧
    webhook_json none exDB [] exNoLid (fun _ => true) (fun _ => true) =
      .error "json.JSONDecodeError" := by
  exact ⟨rfl, rfl, rfl⟩

/-- C1 counterexample: contact `77000@c.us` is mapped to both containers with
both nodes registered, yet an inbound message whose echo send fails on node 1
produces a single per-node outcome — container 2 is never attempted, because
the raised send error aborts the echo loop. -/
theorem fanout_failure_suppresses_rest_cex :
    webhook (some exPayload) exDBTwo [] exNoLid (fun _ => true) exSendFail1 =
      .ok { db := exDBTwo, seen := some (1, true), echoes := [(1, 1, false)], ok := true } ∧
    exDBTwo.contacts = [exRow1, exRow2] ∧
    exRow2.node_id = exNode2.id ∧ exRow2.container_number = some 2 := by
  exact ⟨rfl, rfl, rfl, rfl⟩

/-- C3 counterexample: a successful session creation against the freshly
provisioned registry returns success and stores the session, but leaves every
node record — in particular the chosen node's `active_sessions`, still 0 —
unchanged: no code path increments the counter. -/
theorem create_session_no_increment_cex :
    (create_session { phone := "default", container_number := none } exDB
        (fun _ _ => .ok ())).1 = .ok "http://waha_core_1:3000" 1 "default" ∧
    (create_session { phone := "default", container_number := none } exDB
        (fun _ _ => .ok ())).2.nodes = [exNode1, exNode2] ∧
    exNode1.active_sessions = 0 := by
  exact ⟨rfl, rfl, rfl⟩

/-- C3 (amended): the remote session-creation call is attempted before any
local write, so on any error response — session already exists, container
not found, or remote failure — the state is unchanged; on success exactly
one `WaSession` row is appended and the node table (in particular every
`active_sessions` counter) is left untouched: `create_session` never
increments the chosen node's counter. -/
theorem create_session_remote_first (request : CreateSessionRequest) (db : DB)
    (remote : Nat → String → Except String Unit) :
    match create_session request db remote with
    | (.err _, db') => db' = db
    | (.ok _ _ _, db') =>
      db'.nodes = db.nodes ∧ db'.contacts = db.contacts ∧
        ∃ row : WaSession, row.phone = request.phone ∧ row.session_name = request.phone ∧
          db'.sessions = db.sessions ++ [row] := by
  cases hs : db.sessions.find? (fun s => s.phone == request.phone) with
  | some s => simp [create_session, hs]
  | none =>
    cases hn : db.nodes.find?
        (fun n => strContains n.url ("waha_core_" ++ toString (db.sessions.length % 2 + 1))) with
    | none => simp [create_session, hs, hn]
    | some node =>
      cases hr : remote node.id request.phone with
      | error e => simp [create_session, hs, hn, hr]
      | ok u =>
        simp only [create_session, hs, hn, hr]
        exact ⟨trivial, trivial, _, rfl, rfl, rfl⟩

/-- C7: a `create_session` call for a label that already has a stored session
returns the "already exists" error and changes nothing (no second row, no
counter update); moreover a call never touches the node table, and the
at-most-one-session-per-name invariant is preserved by every call. -/
theorem create_session_already_exists :
    (∀ (request : CreateSessionRequest) (db : DB) (remote : Nat → String → Except String Unit),
        (db.sessions.find? (fun s => s.phone == request.phone)).isSome →
        create_session request db remote =
          (.err ("Session for " ++ request.phone ++ " already exists"), db)) ∧
    (∀ (request : CreateSessionRequest) (db : DB) (remote : Nat → String → Except String Unit),
        SessionsUnique db.sessions →
        SessionsUnique (create_session request db remote).2.sessions) ∧
    (∀ (request : CreateSessionRequest) (db : DB) (remote : Nat → String → Except String Unit),
        (create_session request db remote).2.nodes = db.nodes) := by
  refine ⟨?_, ?_, ?_⟩
  · intro request db remote h
    obtain ⟨s, hs⟩ := Option.isSome_iff_exists.mp h
    simp [create_session, hs]
  · intro request db remote h
    cases hs : db.sessions.find? (fun s => s.phone == request.phone) with
    | some s => simpa [create_session, hs] using h
    | none =>
      cases hn : db.nodes.find?
          (fun n => strContains n.url ("waha_core_" ++ toString (db.sessions.length % 2 + 1))) with
      | none => simpa [create_session, hs, hn] using h
      | some node =>
        cases hr : remote node.id request.phone with
        | error e => simpa [create_session, hs, hn, hr] using h
        | ok u =>
          simp only [create_session, hs, hn, hr]
          have hnone := List.find?_eq_none.mp hs
          refine List.pairwise_append.mpr ⟨h, List.pairwise_singleton _ _, ?_⟩
          intro a ha b hb
          rcases List.mem_singleton.mp hb with rfl

          intro hcontra
          exact absurd (by simpa using hcontra : (a.phone == request.phone) = true)
            (hnone a ha)
  · intro request db remote
    cases hs : db.sessions.find? (fun s => s.phone == request.phone) with
    | some s => simp [create_session, hs]
    | none =>
      cases hn : db.nodes.find?
          (fun n => strContains n.url ("waha_core_" ++ toString (db.sessions.length % 2 + 1))) with
      | none => simp [create_session, hs, hn]
      | some node =>
        cases hr : remote node.id request.phone with
        | error e => simp [create_session, hs, hn, hr]
        | ok u => simp [create_session, hs, hn, hr]

/-- An existing session row for the label `"default"` on node 1. -/
def exSession : WaSession := { id := 0, phone := "default", session_name := "default", node_id := 1 }

/-- A state in which session `"default"` is already stored. -/
def exDBSession : DB := { nodes := [exNode1, exNode2], sessions := [exSession], contacts := [] }

theorem create_session_already_exists_witness :
    create_session { phone := "default", container_number := none } exDBSession
        (fun _ _ => .ok ()) =
      (.err "Session for default already exists", exDBSession) ∧
    SessionsUnique (create_session { phone := "default", container_number := none } exDBSession
        (fun _ _ => .ok ())).2.sessions := by
  constructor
  · exact create_session_already_exists.1
      { phone := "default", container_number := none } exDBSession (fun _ _ => .ok ()) (by rfl)
  · exact create_session_already_exists.2.1
      { phone := "default", container_number := none } exDBSession (fun _ _ => .ok ())
      (by simp [SessionsUnique, exDBSession])

theorem persistLoop_pending_mem (cid : String) (db : DB) (oracle : LidOracle) :
    ∀ (cs : List Nat) (k : Nat), ∀ row ∈ (persistLoop cid db oracle cs k).1,
      row.contact_id = cid ∧ ∃ c ∈ cs, row.container_number = some c ∧ (c = 1 ∨ c = 2) ∧
        db.contacts.find? (fun r => r.contact_id == cid && r.container_number == some c) = none
  | [], k => by simp [persistLoop]
  | c :: cs, k => by
    intro row hrow
    simp only [persistLoop] at hrow
    split at hrow
    · obtain ⟨h1, c', hmem, hrest⟩ := persistLoop_pending_mem cid db oracle cs k row hrow
      exact ⟨h1, c', List.mem_cons_of_mem _ hmem, hrest⟩
    · rename_i hvalid
      have hval : c = 1 ∨ c = 2 := or_iff_not_imp_left.mpr (by simpa using hvalid)
      split at hrow
      · obtain ⟨h1, c', hmem, hrest⟩ := persistLoop_pending_mem cid db oracle cs k row hrow
        exact ⟨h1, c', List.mem_cons_of_mem _ hmem, hrest⟩
      · split at hrow
        · dsimp only at hrow
          obtain ⟨h1, c', hmem, hrest⟩ := persistLoop_pending_mem cid db oracle cs k row hrow
          exact ⟨h1, c', List.mem_cons_of_mem _ hmem, hrest⟩
        · rename_i hexist
          dsimp only at hrow
          rcases List.mem_cons.mp hrow with rfl | hrow
          · exact ⟨rfl, c, List.mem_cons_self c cs, rfl, hval, hexist⟩
          · obtain ⟨h1, c', hmem, hrest⟩ :=
              persistLoop_pending_mem cid db oracle cs (k + 1) row hrow
            exact ⟨h1, c', List.mem_cons_of_mem _ hmem, hrest⟩

theorem persistLoop_containers_mem (cid : String) (db : DB) (oracle : LidOracle) :
    ∀ (cs : List Nat) (k : Nat), ∀ p ∈ (persistLoop cid db oracle cs k).2.1,
      ∃ c, p.1 = some c ∧ (c = 1 ∨ c = 2) ∧ c ∈ cs ∧ nodeByContainer db c = some p.2
  | [], k => by simp [persistLoop]
  | c :: cs, k => by
    intro p hp
    simp only [persistLoop] at hp
    split at hp
    · obtain ⟨c', h1, h2, hmem, h3⟩ := persistLoop_containers_mem cid db oracle cs k p hp
      exact ⟨c', h1, h2, List.mem_cons_of_mem _ hmem, h3⟩
    · rename_i hvalid
      have hval : c = 1 ∨ c = 2 := or_iff_not_imp_left.mpr (by simpa using hvalid)
      split at hp
      · obtain ⟨c', h1, h2, hmem, h3⟩ := persistLoop_containers_mem cid db oracle cs k p hp
        exact ⟨c', h1, h2, List.mem_cons_of_mem _ hmem, h3⟩
      · rename_i node hnode
        split at hp
        · dsimp only at hp
          rcases List.mem_cons.mp hp with rfl | hp
          · exact ⟨c, rfl, hval, List.mem_cons_self c cs, hnode⟩
          · obtain ⟨c', h1, h2, hmem, h3⟩ := persistLoop_containers_mem cid db oracle cs k p hp
            exact ⟨c', h1, h2, List.mem_cons_of_mem _ hmem, h3⟩
        · dsimp only at hp
          rcases List.mem_cons.mp hp with rfl | hp
          · exact ⟨c, rfl, hval, List.mem_cons_self c cs, hnode⟩
          · obtain ⟨c', h1, h2, hmem, h3⟩ :=
              persistLoop_containers_mem cid db oracle cs (k + 1) p hp
            exact ⟨c', h1, h2, List.mem_cons_of_mem _ hmem, h3⟩

theorem persistLoop_pending_pairwise (cid : String) (db : DB) (oracle : LidOracle) :
    ∀ (cs : List Nat) (k : Nat), cs.Nodup →
      (persistLoop cid db oracle cs k).1.Pairwise
        (fun a b => a.container_number ≠ b.container_number)
  | [], k => by simp [persistLoop]
  | c :: cs, k => by
    intro hnodup
    obtain ⟨hc, hcs⟩ := List.nodup_cons.mp hnodup
    simp only [persistLoop]
    split
    · exact persistLoop_pending_pairwise cid db oracle cs k hcs
    · split
      · exact persistLoop_pending_pairwise cid db oracle cs k hcs
      · split
        · dsimp only
          exact persistLoop_pending_pairwise cid db oracle cs k hcs
        · dsimp only
          refine List.Pairwise.cons ?_ (persistLoop_pending_pairwise cid db oracle cs (k + 1) hcs)
          intro b hb
          obtain ⟨_, c', hmem, hbc, _⟩ :=
            persistLoop_pending_mem cid db oracle cs (k + 1) b hb
          dsimp only
          rw [hbc]
          intro heq
          apply hc
          rw [Option.some.inj heq]
          exact hmem

theorem addMatch_nodup (phone : String) (acc : List Nat) (e : Nat × List String)
    (h : acc.Nodup) : (addMatch phone acc e).Nodup := by
  unfold addMatch
  split
  · rename_i hcond
    have hnotmem : e.1 ∉ acc := by
      intro hmem
      have hand := (Bool.and_eq_true _ _).mp hcond
      have htrue : acc.contains e.1 = true := by
        simpa [List.contains] using List.elem_iff.mpr hmem
      rw [htrue] at hand
      simp at hand
    refine List.nodup_append.mpr ⟨h, List.nodup_singleton _, ?_⟩
    intro a ha hb
    rcases List.mem_singleton.mp hb with rfl
    exact hnotmem ha
  · exact h

theorem matchedContainers_nodup (phone : String) (table : List (Nat × List String)) :
    (matchedContainers phone table).Nodup := by
  suffices h : ∀ (t : List (Nat × List String)) (acc : List Nat), acc.Nodup →
      (t.foldl (addMatch phone) acc).Nodup from h table [] List.nodup_nil
  intro t
  induction t with
  | nil => intro acc h; exact h
  | cons e t ih =>
    intro acc h
    exact ih _ (addMatch_nodup phone acc e h)

theorem existingContainers_mem {cid : String} {db : DB} {p : Option Nat × WahaNode}
    (h : p ∈ existingContainers cid db) :
    ∃ m ∈ db.contacts, m.contact_id = cid ∧ p.1 = m.container_number ∧
      db.nodes.find? (fun n => n.id == m.node_id) = some p.2 := by
  simp only [existingContainers, List.mem_filterMap] at h
  obtain ⟨m, hm, hf⟩ := h
  have hmem := List.mem_filter.mp hm
  cases hn : db.nodes.find? (fun n => n.id == m.node_id) with
  | none => rw [hn] at hf; simp at hf
  | some n =>
    rw [hn] at hf
    simp only [Option.map_some'] at hf
    have hp := Option.some.inj hf
    refine ⟨m, hmem.1, by simpa using hmem.2, ?_, ?_⟩
    · rw [← hp]
    · rw [← hp]
      exact hn

theorem existingContainers_ne_nil {cid : String} {db : DB}
    (h1 : ∃ m ∈ db.contacts, m.contact_id = cid)
    (h2 : ∀ m ∈ db.contacts, m.contact_id = cid → ∃ n ∈ db.nodes, n.id = m.node_id) :
    existingContainers cid db ≠ [] := by
  obtain ⟨m, hm, hcid⟩ := h1
  obtain ⟨n, hn, hid⟩ := h2 m hm hcid
  intro hnil
  simp only [existingContainers] at hnil
  have hmm := List.filterMap_eq_nil_iff.mp hnil m (List.mem_filter.mpr ⟨hm, by simp [hcid]⟩)
  cases hfind : db.nodes.find? (fun x => x.id == m.node_id) with
  | none =>
    have hsome : (db.nodes.find? (fun x => x.id == m.node_id)).isSome := by
      rw [List.find?_isSome]
      exact ⟨n, hn, by simp [hid]⟩
    rw [hfind] at hsome
    simp at hsome
  | some x => rw [hfind] at hmm; simp at hmm

theorem resolver_preserves_unique (cid : String) (db : DB) (table : List (Nat × List String))
    (oracle : LidOracle) (h : ContactsUnique db.contacts) :
    ContactsUnique ((get_container_for_contact cid db table oracle).2.1).contacts := by
  unfold get_container_for_contact
  cases hE : existingContainers cid db with
  | cons c rest => exact h
  | nil =>
    dsimp only
    have hnodup : (if (matchedContainers (resolvedPhoneForMatching cid db oracle).1
          table).isEmpty then [fallbackContainer cid]
          else matchedContainers (resolvedPhoneForMatching cid db oracle).1 table).Nodup := by
      split
      · exact List.nodup_singleton _
      · exact matchedContainers_nodup _ _
    have key : ContactsUnique (db.contacts ++
        (persistLoop cid db oracle
          (if (matchedContainers (resolvedPhoneForMatching cid db oracle).1 table).isEmpty
            then [fallbackContainer cid]
            else matchedContainers (resolvedPhoneForMatching cid db oracle).1 table)
          db.contacts.length).1) := by
      refine List.pairwise_append.mpr ⟨h, ?_, ?_⟩
      · refine (persistLoop_pending_pairwise cid db oracle _ _ hnodup).imp ?_
        intro a b hne hcontr
        exact hne hcontr.2
      · intro a ha b hb
        obtain ⟨hbcid, cnum, _, hbc, _, hnone⟩ :=
          persistLoop_pending_mem cid db oracle _ _ b hb
        rintro ⟨hcid, hcont⟩
        have hpred := List.find?_eq_none.mp hnone a ha
        apply hpred
        rw [Bool.and_eq_true]
        constructor
        · simp [hcid, hbcid]
        · simp [hcont, hbc]
    split <;> exact key

theorem insertUnique_preserves_unique (db : DB) (row : ContactContainer)
    (h : ContactsUnique db.contacts) : ContactsUnique (insertUnique db row).contacts := by
  unfold insertUnique
  split
  · exact h
  · rename_i hany
    refine List.pairwise_append.mpr ⟨h, List.pairwise_singleton _ _, ?_⟩
    intro a ha b hb
    rcases List.mem_singleton.mp hb with rfl
    rintro ⟨hcid, hcont⟩
    apply hany
    rw [List.any_eq_true]
    exact ⟨a, ha, by simp [hcid, hcont]⟩

theorem create_session_contacts_eq (request : CreateSessionRequest) (db : DB)
    (remote : Nat → String → Except String Unit) :
    (create_session request db remote).2.contacts = db.contacts := by
  cases hs : db.sessions.find? (fun s => s.phone == request.phone) with
  | some s => simp [create_session, hs]
  | none =>
    cases hn : db.nodes.find?
        (fun n => strContains n.url ("waha_core_" ++ toString (db.sessions.length % 2 + 1))) with
    | none => simp [create_session, hs, hn]
    | some node =>
      cases hr : remote node.id request.phone with
      | error e => simp [create_session, hs, hn, hr]
      | ok u => simp [create_session, hs, hn, hr]

theorem send_msg_db_eq (sp rc txt : String) (db : DB) (table : List (Nat × List String))
    (oracle : LidOracle) (sendOk : Nat → Bool) :
    (send_msg sp rc txt db table oracle sendOk).2.1 =
      (get_container_for_contact rc db table oracle).2.1 := by
  unfold send_msg
  rcases hr : get_container_for_contact rc db table oracle with ⟨res, db', k⟩
  cases res with
  | error e => simp
  | ok cn => dsimp only; split <;> rfl

theorem webhook_db_cases {parsed : Option WebhookPayload} {db : DB}
    {table : List (Nat × List String)} {oracle : LidOracle} {seenOk sendOk : Nat → Bool}
    {out : WebhookOut} (h : webhook parsed db table oracle seenOk sendOk = .ok out) :
    out.db = db ∨ ∃ cid, out.db = (get_container_for_contact cid db table oracle).2.1 := by
  cases parsed with
  | none => simp [webhook] at h
  | some payload =>
    simp only [webhook] at h
    repeat' split at h
    all_goals injection h with h
    all_goals subst h
    all_goals try exact Or.inl rfl
    all_goals
      rename_i heq
      exact Or.inr ⟨_, (congrArg (fun t => t.2.1) heq).symm⟩

theorem webhook_json_db_cases {body : Option JsonVal} {db : DB}
    {table : List (Nat × List String)} {oracle : LidOracle} {seenOk sendOk : Nat → Bool}
    {out : WebhookOut} (h : webhook_json body db table oracle seenOk sendOk = .ok out) :
    out.db = db ∨ ∃ cid, out.db = (get_container_for_contact cid db table oracle).2.1 := by
  cases body with
  | none => simp [webhook_json] at h
  | some parsed =>
    cases parsed with
    | obj fields =>
      simp only [webhook_json] at h
      repeat' split at h
      all_goals first
        | exact Except.noConfusion h
        | (injection h with h; subst h; exact Or.inl rfl)
        | (injection h with h; subst h;
           first
             | (rename_i heq;
                exact Or.inr ⟨_, (congrArg
                  (fun t : Except String (Option Nat × WahaNode) × DB × Nat => t.2.1) heq).symm⟩)
             | (rename_i heq _;
                exact Or.inr ⟨_, (congrArg
                  (fun t : Except String (Option Nat × WahaNode) × DB × Nat => t.2.1) heq).symm⟩)
             | (rename_i heq _ _;
                exact Or.inr ⟨_, (congrArg
                  (fun t : Except String (Option Nat × WahaNode) × DB × Nat => t.2.1) heq).symm⟩)
             | (rename_i heq _ _ _;
                exact Or.inr ⟨_, (congrArg
                  (fun t : Except String (Option Nat × WahaNode) × DB × Nat => t.2.1) heq).symm⟩)
             | (rename_i heq _ _ _ _;
                exact Or.inr ⟨_, (congrArg
                  (fun t : Except String (Option Nat × WahaNode) × DB × Nat => t.2.1) heq).symm⟩))
    | null => simp [webhook_json] at h
    | bool b => simp [webhook_json] at h
    | num n => simp [webhook_json] at h
    | str s => simp [webhook_json] at h
    | arr l => simp [webhook_json] at h

/-- C4: in every reachable state no two `ContactContainer` rows share both the
contact identifier and the container number, and an insert whose
`(contact_id, container_number)` pair already exists — a concurrent duplicate
writer going through the `uq_contact_container` constraint — is rejected,
leaving the table unchanged rather than producing a second row. -/
theorem contact_pair_unique :
    (∀ db : DB, Reachable db → ContactsUnique db.contacts) ∧
    (∀ (db : DB) (row : ContactContainer),
        db.contacts.any (fun r => r.contact_id == row.contact_id &&
          r.container_number == row.container_number) = true →
        insertUnique db row = db) := by
  constructor
  · intro db h
    induction h with
    | boot nodes => exact List.Pairwise.nil
    | createStep request remote db hdb ih =>
      rw [ContactsUnique, create_session_contacts_eq]
      exact ih
    | resolveStep cid table oracle db hdb ih =>
      exact resolver_preserves_unique cid db table oracle ih
    | sendStep sp rc txt table oracle sendOk db hdb ih =>
      rw [ContactsUnique, send_msg_db_eq]
      exact resolver_preserves_unique rc db table oracle ih
    | webhookStep p table oracle seenOk sendOk db out hdb heq ih =>
      rcases webhook_db_cases heq with h | ⟨cid, h⟩
      · rw [ContactsUnique, h]; exact ih
      · rw [ContactsUnique, h]
        exact resolver_preserves_unique cid db table oracle ih
    | webhookJsonStep body table oracle seenOk sendOk db out hdb heq ih =>
      rcases webhook_json_db_cases heq with h | ⟨cid, h⟩
      · rw [ContactsUnique, h]; exact ih
      · rw [ContactsUnique, h]
        exact resolver_preserves_unique cid db table oracle ih
    | rawInsertStep row db hdb ih =>
      exact insertUnique_preserves_unique db row ih
  · intro db row h
    simp only [insertUnique, h]
    rfl

theorem contact_pair_unique_witness :
    ContactsUnique (DB.mk [exNode1, exNode2] [] []).contacts ∧
    insertUnique exDBTwo
        { id := 99, contact_id := "77000@c.us", phone_number := "x",
          container_number := some 1, node_id := 2 } = exDBTwo := by
  constructor
  · exact contact_pair_unique.1 _ (Reachable.boot [exNode1, exNode2])
  · exact contact_pair_unique.2 exDBTwo
      { id := 99, contact_id := "77000@c.us", phone_number := "x",
        container_number := some 1, node_id := 2 } (by rfl)

/-- C5: for a contact that already has persisted assignment rows (whose nodes
are present in the registry), the resolver answers from the database: it
returns a pair taken from the persisted set, leaves the database unchanged,
makes no remote lid-resolution call, and re-running it reproduces the same
outcome. -/
theorem resolver_idempotent (cid : String) (db : DB) (table : List (Nat × List String))
    (oracle : LidOracle)
    (h1 : ∃ m ∈ db.contacts, m.contact_id = cid)
    (h2 : ∀ m ∈ db.contacts, m.contact_id = cid → ∃ n ∈ db.nodes, n.id = m.node_id) :
    ∃ c, c ∈ existingContainers cid db ∧
      get_container_for_contact cid db table oracle = (.ok c, db, 0) ∧
      get_container_for_contact cid ((get_container_for_contact cid db table oracle).2.1)
          table oracle =
        get_container_for_contact cid db table oracle := by
  have hne := existingContainers_ne_nil h1 h2
  cases hE : existingContainers cid db with
  | nil => exact absurd hE hne
  | cons c rest =>
    have hresolve : get_container_for_contact cid db table oracle = (.ok c, db, 0) := by
      unfold get_container_for_contact
      rw [hE]
    refine ⟨c, List.mem_cons_self c rest, hresolve, ?_⟩
    rw [hresolve]
    exact hresolve

theorem resolver_idempotent_witness :
    ∃ c, c ∈ existingContainers "77000@c.us" exDBTwo ∧
      get_container_for_contact "77000@c.us" exDBTwo [] exNoLid = (.ok c, exDBTwo, 0) ∧
      get_container_for_contact "77000@c.us"
          ((get_container_for_contact "77000@c.us" exDBTwo [] exNoLid).2.1) [] exNoLid =
        get_container_for_contact "77000@c.us" exDBTwo [] exNoLid :=
  resolver_idempotent "77000@c.us" exDBTwo [] exNoLid
    ⟨exRow1, by simp [exDBTwo], rfl⟩ (by decide)

/-- C10: every `ContactContainer` row the resolver adds carries container
number 1 or 2 — a static-table entry naming any other container number is
skipped, whatever the table contains — and, when every pre-existing row
already satisfies this, the routing target returned by the resolver also
names container 1 or 2. -/
theorem resolver_container_range :
    (∀ (cid : String) (db : DB) (table : List (Nat × List String)) (oracle : LidOracle),
        ∀ r ∈ ((get_container_for_contact cid db table oracle).2.1).contacts,
          r ∈ db.contacts ∨ r.container_number = some 1 ∨ r.container_number = some 2) ∧
    (∀ (cid : String) (db : DB) (table : List (Nat × List String)) (oracle : LidOracle)
        (c : Option Nat) (node : WahaNode) (db' : DB) (k : Nat),
        (∀ r ∈ db.contacts, r.container_number = some 1 ∨ r.container_number = some 2) →
        get_container_for_contact cid db table oracle = (.ok (c, node), db', k) →
        c = some 1 ∨ c = some 2) := by
  constructor
  · intro cid db table oracle r hr
    unfold get_container_for_contact at hr
    cases hE : existingContainers cid db with
    | cons c rest => rw [hE] at hr; exact Or.inl hr
    | nil =>
      rw [hE] at hr
      dsimp only at hr
      split at hr <;>
      · dsimp only at hr
        rcases List.mem_append.mp hr with hr | hr
        · exact Or.inl hr
        · obtain ⟨_, cnum, _, hcont, hval, _⟩ :=
            persistLoop_pending_mem cid db oracle _ _ r hr
          rcases hval with rfl | rfl
          · exact Or.inr (Or.inl hcont)
          · exact Or.inr (Or.inr hcont)
  · intro cid db table oracle c node db' k hinv heq
    unfold get_container_for_contact at heq
    cases hE : existingContainers cid db with
    | cons p rest =>
      rw [hE] at heq
      have hp1 : (Except.ok p : Except String (Option Nat × WahaNode)) = .ok (c, node) :=
        congrArg (fun t => t.1) heq
      have hpc : p.1 = c := congrArg (fun q => q.1) (Except.ok.inj hp1)
      obtain ⟨m, hm, _, hcontainer, _⟩ :=
        existingContainers_mem (hE ▸ List.mem_cons_self p rest)
      rw [← hpc, hcontainer]
      exact hinv m hm
    | nil =>
      rw [hE] at heq
      dsimp only at heq
      split at heq
      · exact absurd (congrArg (fun t => t.1) heq) (by simp)
      · rename_i p rest hres
        have hp1 : (Except.ok p : Except String (Option Nat × WahaNode)) = .ok (c, node) :=
          congrArg (fun t => t.1) heq
        have hpc : p.1 = c := congrArg (fun q => q.1) (Except.ok.inj hp1)
        have hmem : p ∈ (persistLoop cid db oracle
            (if (matchedContainers (resolvedPhoneForMatching cid db oracle).1 table).isEmpty
              then [fallbackContainer cid]
              else matchedContainers (resolvedPhoneForMatching cid db oracle).1 table)
            db.contacts.length).2.1 := by
          rw [hres]
          exact List.mem_cons_self p rest
        obtain ⟨cnum, hcnum, hval, _, _⟩ :=
          persistLoop_containers_mem cid db oracle _ _ p hmem
        rw [← hpc, hcnum]
        rcases hval with rfl | rfl
        · exact Or.inl rfl
        · exact Or.inr rfl

theorem resolver_container_range_witness :
    (some 2 = some 1 ∨ some 2 = some 2 : Prop) :=
  resolver_container_range.2 "9@c.us" exDB [] exNoLid (some 2) exNode2
    (get_container_for_contact "9@c.us" exDB [] exNoLid).2.1
    (get_container_for_contact "9@c.us" exDB [] exNoLid).2.2
    (by intro r hr; simp [exDB] at hr) (by rfl)

/-- C1 (amended): `send_msg` delivers to exactly one node — the node of the
first resolved `(container, node)` pair — producing a single outcome; the
webhook echo path attempts one send per persisted mapping in database order,
but a failed send aborts the loop, so the outcomes are exactly the targets up
to and including the first failure. -/
theorem fanout_first_failure_truncates :
    (∀ (db : DB) (sendOk : Nat → Bool) (ms : List ContactContainer),
        echo_loop db sendOk ms = echoUpToFirstFailure sendOk (validEchoTargets db ms)) ∧
    (∀ (sp rc txt : String) (db : DB) (table : List (Nat × List String)) (oracle : LidOracle)
        (sendOk : Nat → Bool) (c : Option Nat) (node : WahaNode) (db' : DB) (k : Nat),
        get_container_for_contact rc db table oracle = (.ok (c, node), db', k) →
        send_msg sp rc txt db table oracle sendOk =
          ((if sendOk node.id then .ok { container := c, node_id := node.id }
            else .error "send failed"), db', k)) := by
  constructor
  · intro db sendOk ms
    induction ms with
    | nil => rfl
    | cons m ms ih =>
      simp only [echo_loop, validEchoTargets, List.filterMap_cons]
      cases hn : db.nodes.find? (fun n => n.id == m.node_id) with
      | none => exact ih
      | some node =>
        cases hc : m.container_number with
        | none => exact ih
        | some c =>
          simp only [echoUpToFirstFailure]
          by_cases hs : sendOk node.id
          · rw [if_pos hs, if_pos hs]
            exact congrArg _ ih
          · rw [if_neg hs, if_neg hs]
  · intro sp rc txt db table oracle sendOk c node db' k heq
    unfold send_msg
    rw [heq]
    dsimp only
    split <;> rfl

theorem fanout_first_failure_truncates_witness :
    send_msg "default" "77000@c.us" "hi" exDBTwo [] exNoLid exSendFail1 =
      (.error "send failed", exDBTwo, 0) ∧
    echo_loop exDBTwo exSendFail1 [exRow1, exRow2] =
      echoUpToFirstFailure exSendFail1 (validEchoTargets exDBTwo [exRow1, exRow2]) := by
  constructor
  · have h := fanout_first_failure_truncates.2 "default" "77000@c.us" "hi" exDBTwo [] exNoLid
      exSendFail1 (some 1) exNode1 exDBTwo 0 (by rfl)
    exact h.trans (by rfl)
  · exact fanout_first_failure_truncates.1 exDBTwo exSendFail1 [exRow1, exRow2]

theorem matchedContainers_eq_nil (phone : String) (table : List (Nat × List String))
    (h : ∀ e ∈ table, e.2.contains phone = false) :
    matchedContainers phone table = [] := by
  suffices hgen : ∀ (t : List (Nat × List String)), (∀ e ∈ t, e.2.contains phone = false) →
      ∀ acc, t.foldl (addMatch phone) acc = acc by
    exact hgen table h []
  intro t
  induction t with
  | nil => intro _ acc; rfl
  | cons e t ih =>
    intro ht acc
    have he := ht e (List.mem_cons_self e t)
    have hstep : addMatch phone acc e = acc := by
      unfold addMatch
      rw [he]
      rfl
    rw [List.foldl_cons, hstep]
    exact ih (fun x hx => ht x (List.mem_cons_of_mem e hx)) acc

theorem persistLoop_single (cid : String) (db : DB) (oracle : LidOracle) (c k : Nat)
    (hval : c = 1 ∨ c = 2) (node : WahaNode) (hnode : nodeByContainer db c = some node)
    (hnew : db.contacts.find?
        (fun r => r.contact_id == cid && r.container_number == some c) = none) :
    ∃ pn, persistLoop cid db oracle [c] k =
      ([{ id := k, contact_id := cid, phone_number := pn,
          container_number := some c, node_id := node.id }], [(some c, node)],
        if strContains cid "@lid" then 1 else 0) := by
  rcases hval with rfl | rfl <;>
  · cases hl : strContains cid "@lid" <;>
    · simp only [persistLoop, hnode, hnew, hl, Bool.false_eq_true, if_false, if_true,
        Nat.reduceBEq, Bool.or_self, Bool.or_true, Bool.true_or, Bool.not_true,
        Bool.not_false, apply_ite Prod.fst, apply_ite Prod.snd, ite_self, Nat.add_zero]
      exact ⟨_, rfl⟩

/-- C6 (amended): for a contact with no persisted assignment whose resolved
phone number matches no static-table entry, the resolver derives the
container with the default rule of `fallbackContainer` — computed from the
last character of the part of the identifier before `'@'` (the whole
identifier when it has no `'@'`), treating a missing or non-digit character
as 0, digits 0-4 giving container 1 and digits 5-9 container 2 — and, when
the registry has a node for that container, returns exactly that single
container and persists exactly one new row tagged with it. -/
theorem resolver_fallback_last_digit (cid : String) (db : DB)
    (table : List (Nat × List String)) (oracle : LidOracle)
    (h1 : db.contacts.filter (fun r => r.contact_id == cid) = [])
    (h2 : ∀ e ∈ table, e.2.contains (resolvedPhoneForMatching cid db oracle).1 = false)
    (node : WahaNode) (h3 : nodeByContainer db (fallbackContainer cid) = some node) :
    ∃ pn, get_container_for_contact cid db table oracle =
      (.ok (some (fallbackContainer cid), node),
        { db with contacts := db.contacts ++
            [{ id := db.contacts.length, contact_id := cid, phone_number := pn,
               container_number := some (fallbackContainer cid), node_id := node.id }] },
        (resolvedPhoneForMatching cid db oracle).2 +
          (if strContains cid "@lid" then 1 else 0)) := by
  have hval : fallbackContainer cid = 1 ∨ fallbackContainer cid = 2 := by
    unfold fallbackContainer
    dsimp only
    exact ite_eq_or_eq _ 1 2
  have hE : existingContainers cid db = [] := by
    simp only [existingContainers, h1, List.filterMap_nil]
  have hnew : db.contacts.find?
      (fun r => r.contact_id == cid && r.container_number == some (fallbackContainer cid)) =
        none := by
    rw [List.find?_eq_none]
    intro r hr
    have hnc := List.filter_eq_nil_iff.mp h1 r hr
    simp only [Bool.and_eq_true]
    rintro ⟨hc, _⟩
    exact hnc hc
  obtain ⟨pn, hloop⟩ := persistLoop_single cid db oracle (fallbackContainer cid)
    db.contacts.length hval node h3 hnew
  have hmatched : matchedContainers (resolvedPhoneForMatching cid db oracle).1 table = [] :=
    matchedContainers_eq_nil _ _ h2
  refine ⟨pn, ?_⟩
  unfold get_container_for_contact
  rw [hE]
  dsimp only
  rw [hmatched]
  simp only [List.isEmpty_nil, if_true]
  rw [hloop]

theorem resolver_fallback_last_digit_witness :
    ∃ pn, get_container_for_contact "9@c.us" exDB [] exNoLid =
      (.ok (some (fallbackContainer "9@c.us"), exNode2),
        { exDB with contacts := exDB.contacts ++
            [{ id := exDB.contacts.length, contact_id := "9@c.us", phone_number := pn,
               container_number := some (fallbackContainer "9@c.us"), node_id := exNode2.id }] },
        (resolvedPhoneForMatching "9@c.us" exDB exNoLid).2 +
          (if strContains "9@c.us" "@lid" then 1 else 0)) :=
  resolver_fallback_last_digit "9@c.us" exDB [] exNoLid rfl
    (by intro e he; exact absurd he (List.not_mem_nil e)) exNode2 rfl

/-- C6 counterexample: the final character of the identifier `"9@c.us"` is
`'s'`, not a digit, so the claimed rule would treat it as 0 and route the
contact to container 1; with no persisted row and an empty static table the
code instead routes it to container 2, because the fallback reads the last
digit of the part before `'@'` (here `"9"`), not the identifier's final
character. -/
theorem fallback_ignores_suffix_cex :
    "9@c.us".toList.getLast? = some 's' ∧ 's'.isDigit = false ∧
    (get_container_for_contact "9@c.us" exDB [] exNoLid).1 = .ok (some 2, exNode2) := by
  exact ⟨rfl, rfl, rfl⟩

end Waha
